import Mathlib

/-!
Verification development for the geoProc geospatial raster toolkit.

Each definition is a shallow embedding of a function of the Python source:
program reals are modelled as exact rationals (`ℚ`), Python's `math.floor` /
`math.ceil` as `Int.floor` / `Int.ceil`, `int()` truncation toward zero as
`pytrunc`, fallible calls as `Except` / `Option` values, and the in-place
mutation performed by `XRio.subset` as explicit state passing (the returned
record holds the post-call contents of the caller's bound lists).
-/

namespace GeoProc

/-! ### TileLocator (src/geoproc/surfaceMapping/util.py) -/

/-- Python `f"{n:03d}"` for a non-negative integer: decimal digits left-padded
with zeros to width 3. -/
def format03d (n : ℕ) : String :=
  let s := toString n
  if s.length < 3 then String.mk (List.replicate (3 - s.length) '0') ++ s else s

/-- `TileLocator.floor10`: `abs( int(floor(fval / 10.0)) * 10 )`. -/
def floor10 (fval : ℚ) : ℕ :=
  (⌊fval / 10⌋ * 10).natAbs

/-- `TileLocator.ceil10`: `abs( int(ceil(fval / 10.0)) * 10 )`. -/
def ceil10 (fval : ℚ) : ℕ :=
  (⌈fval / 10⌉ * 10).natAbs

/-- `TileLocator.unwrap`: `coord if coord < 180 else coord - 360`. -/
def unwrap (coord : ℚ) : ℚ :=
  if coord < 180 then coord else coord - 360

/-- `TileLocator.lon_label`. -/
def lon_label (lon : ℚ) : String :=
  let ulon := unwrap lon
  if ulon < 0 then format03d (floor10 ulon) ++ "W"
  else format03d (floor10 ulon) ++ "E"

/-- `TileLocator.lat_label`. -/
def lat_label (lat : ℚ) : String :=
  if lat > 0 then format03d (ceil10 lat) ++ "N"
  else format03d (ceil10 lat) ++ "S"

/-- A two-element Python set literal `{a, b}`, as the list of its distinct
elements.  (Python's set iteration order is unspecified; every claim proved
about `get_tiles` is insensitive to the order of this list.) -/
def pyset2 (a b : String) : List String :=
  if a = b then [a] else [a, b]

/-- `TileLocator.get_tiles`: cross product of the longitude-label set and the
latitude-label set. -/
def get_tiles (xmin xmax ymin ymax : ℚ) : List String :=
  ((pyset2 (lon_label xmin) (lon_label xmax)).map
    (fun xval => (pyset2 (lat_label ymin) (lat_label ymax)).map
      (fun yval => xval ++ yval))).flatten

/-- `lon_label` as the frozen claim words it (for comparison with the source
function `lon_label`): unwrap to `(-180,180]` when given in `[0,360)`,
magnitude `floor(|lon|/10)*10`, suffix by the sign of the original value. -/
def lon_label_claim (lon : ℚ) : String :=
  let ulon := if 180 < lon ∧ lon < 360 then lon - 360 else lon
  let mag := (⌊|ulon| / 10⌋ * 10).toNat
  if 0 ≤ lon then format03d mag ++ "E" else format03d mag ++ "W"

/-! ### GDALGrid affine model (src/geoproc/xext/grid.py)

`GDALGrid.affine = Affine.from_gdal(*dataset.GetGeoTransform())`; the `affine`
package stores the six parameters row-major, mapping
`(x, y) ↦ (a*x + b*y + c, d*x + e*y + f)` where `a` is the pixel width, `e`
the pixel height and `b`, `d` the rotation terms. -/

structure AffineT where
  a : ℚ
  b : ℚ
  c : ℚ
  d : ℚ
  e : ℚ
  f : ℚ

/-- `Affine.__mul__` applied to a point: `(a*x + b*y + c, d*x + e*y + f)`. -/
def affine_apply (t : AffineT) (x y : ℚ) : ℚ × ℚ :=
  (t.a * x + t.b * y + t.c, t.d * x + t.e * y + t.f)

/-- `Affine.determinant`: `a*e - b*d`. -/
def det (t : AffineT) : ℚ :=
  t.a * t.e - t.b * t.d

/-- `Affine.__invert__` (the `~affine` of `coord2pixel`); raises
`TransformNotInvertibleError` when the determinant is zero, which callers of
this model check separately. -/
def ainv (t : AffineT) : AffineT :=
  let idet := 1 / det t
  let ra := t.e * idet
  let rb := -t.b * idet
  let rd := -t.d * idet
  let re := t.a * idet
  { a := ra, b := rb, c := -t.c * ra - t.f * rb,
    d := rd, e := re, f := -t.c * rd - t.f * re }

/-- The state of a `GDALGrid` needed by `pixel2coord` / `coord2pixel`. -/
structure GDALGrid where
  affine : AffineT
  x_size : ℕ
  y_size : ℕ

inductive GridError where
  | colOutOfBounds
  | rowOutOfBounds
  | lonOutOfBounds
  | latOutOfBounds
  | notInvertible
deriving DecidableEq

/-- Python `int()` on a real value: truncation toward zero. -/
def pytrunc (q : ℚ) : ℤ :=
  if q < 0 then ⌈q⌉ else ⌊q⌋

/-- A concrete 2×2 north-up grid with unit pixels and origin 0 (identity
affine transform), used as test input. -/
def unitGrid : GDALGrid :=
  GDALGrid.mk (AffineT.mk 1 0 0 0 1 0) 2 2

/-- `GDALGrid.pixel2coord`: raises `IndexError` when `col >= x_size` or
`row >= y_size` (no negativity check in the source), otherwise returns
`affine * (col + 0.5, row + 0.5)`. -/
def pixel2coord (g : GDALGrid) (col row : ℤ) : Except GridError (ℚ × ℚ) :=
  if (g.x_size : ℤ) ≤ col then .error .colOutOfBounds
  else if (g.y_size : ℤ) ≤ row then .error .rowOutOfBounds
  else .ok (affine_apply g.affine ((col : ℚ) + 1/2) ((row : ℚ) + 1/2))

/-- `GDALGrid.coord2pixel`: `col, row = ~affine * (x, y)` (which raises when
the affine transform is not invertible), then raises `IndexError` when
`col > x_size or col < 0`, then when `row > y_size or row < 0`, and finally
returns `(int(col), int(row))`. -/
def coord2pixel (g : GDALGrid) (x y : ℚ) : Except GridError (ℤ × ℤ) :=
  if det g.affine = 0 then .error .notInvertible
  else
    let p := affine_apply (ainv g.affine) x y
    if (g.x_size : ℚ) < p.1 ∨ p.1 < 0 then .error .lonOutOfBounds
    else if (g.y_size : ℚ) < p.2 ∨ p.2 < 0 then .error .latOutOfBounds
    else .ok (pytrunc p.1, pytrunc p.2)

/-- `coord2pixel(pixel2coord(col, row))`, the round trip of claim C1. -/
def roundtrip (g : GDALGrid) (col row : ℤ) : Except GridError (ℤ × ℤ) :=
  match pixel2coord g col row with
  | .error e => .error e
  | .ok (x, y) => coord2pixel g x y

/-! ### XRio loader (src/geoproc/xext/xrio.py)

`XRio.open` catches every per-file exception and returns `None`; a call is
therefore modelled by its outcome, an `Option` holding the opened array.
`expand_dims("time", 0)` turns one array into a one-entry time stack and
`concat` appends along `time`, so a time-indexed stack is modelled by the
list of its entries in time order. -/

/-- One iteration of the `XRio.load` loop: a failed open (`None`) is skipped;
the first success starts the stack (`expand_dims("time", 0)`); every further
success is concatenated along `time`. -/
def load_step {α : Type} (result : Option (List α)) (oa : Option α) :
    Option (List α) :=
  match oa with
  | none => result
  | some a =>
    match result with
    | none => some [a]
    | some stack => some (stack ++ [a])

/-- `XRio.load` over the per-file open outcomes: starts from `result = None`
and folds the loop body over the files in input order. -/
def load {α : Type} (outcomes : List (Option α)) : Option (List α) :=
  outcomes.foldl load_step none

/-- An `xarray` data array as `XRio.load1` / `XRio.mergable` see it: its shape
tuple plus its payload. -/
structure XArr (α : Type) where
  shape : List ℕ
  data : α
deriving DecidableEq

/-- `XRio.mergable`: every array's shape equals the first array's shape
(vacuously true on fewer than two arrays). -/
def mergable {α : Type} (arrays : List (XArr α)) : Bool :=
  match arrays with
  | [] => true
  | a0 :: _ => arrays.all (fun arr => decide (arr.shape = a0.shape))

/-- `XRio.merge` with the default `index=None`: concatenates along a new time
axis indexed by `range(len(data_arrays))`. -/
def merge {α : Type} (data_arrays : List (XArr α)) : List (ℕ × XArr α) :=
  (List.range data_arrays.length).zip data_arrays

inductive LoadError where
  | shapeMismatch
  | indexOutOfRange
deriving DecidableEq

/-- Result of `XRio.load1`: a merged time-indexed stack when more than one
file opened, otherwise the single opened array. -/
inductive Load1Result (α : Type) where
  | stack : List (ℕ × XArr α) → Load1Result α
  | single : XArr α → Load1Result α
deriving DecidableEq

/-- `XRio.load1` over the per-file open outcomes: collects the successful
opens in order; with more than one it asserts `mergable` (an `AssertionError`,
the spec's ShapeMismatchError) before merging; with none, `array_list[0]`
raises `IndexError`. -/
def load1 {α : Type} (outcomes : List (Option (XArr α))) :
    Except LoadError (Load1Result α) :=
  let array_list := outcomes.filterMap id
  if 1 < array_list.length then
    if mergable array_list then .ok (.stack (merge array_list))
    else .error .shapeMismatch
  else
    match array_list with
    | [] => .error .indexOutOfRange
    | a :: _ => .ok (.single a)

/-! ### XRio.subset (src/geoproc/xext/xrio.py lines 47-54) -/

/-- The coordinate state of the data array `XRio.subset` runs on. -/
structure XData where
  x_coords : List ℚ
  y_coords : List ℚ

/-- `TileLocator.get_bounds`: `[x[0], x[-1], y[0], y[-1]]` (defined on grids
with nonempty coordinate lists; `headD`/`getLastD` totalise the model). -/
def get_bounds (g : XData) : List ℚ :=
  [g.x_coords.headD 0, g.x_coords.getLastD 0,
   g.y_coords.headD 0, g.y_coords.getLastD 0]

/-- Python `list.sort()`: stable ascending sort. -/
def pysort_asc (l : List ℚ) : List ℚ :=
  l.mergeSort (fun a b => decide (a ≤ b))

/-- Python `list.sort(reverse=True)`: stable descending sort. -/
def pysort_desc (l : List ℚ) : List ℚ :=
  l.mergeSort (fun a b => decide (b ≤ a))

/-- Post-call state of `XRio.subset`: the final contents of the caller's two
bound lists (mutated in place by `list.sort`) and the coordinate window
`slice(*xbounds), slice(*ybounds)` passed to `sel`. -/
structure SubsetResult where
  xbounds : List ℚ
  ybounds : List ℚ
  x_window : Option ℚ × Option ℚ
  y_window : Option ℚ × Option ℚ
deriving DecidableEq

/-- `XRio.subset`: `xbounds.sort(), ybounds.sort(reverse = (tile_bounds[2] >
tile_bounds[3]))`, then `sel` with `slice(*xbounds), slice(*ybounds)`. -/
def subset (g : XData) (xbounds ybounds : List ℚ) : SubsetResult :=
  let tile_bounds := get_bounds g
  let xb := pysort_asc xbounds
  let yb := if tile_bounds.getD 2 0 > tile_bounds.getD 3 0
    then pysort_desc ybounds else pysort_asc ybounds
  { xbounds := xb, ybounds := yb,
    x_window := (xb.head?, xb[1]?),
    y_window := (yb.head?, yb[1]?) }

/-! ### resample_grid nodata policy (src/geoproc/xext/grid.py lines 589-593) -/

/-- Destination-band nodata as set by `resample_grid`:
`nodata_value = src.GetRasterBand(i).GetNoDataValue()` (`None` when the band
declares none), then `if not nodata_value: nodata_value = -9999` — Python
falsiness treats both `None` and a declared `0.0` as false. -/
def resample_nodata : Option ℚ → ℚ
  | none => -9999
  | some v => if v = 0 then -9999 else v

/-- The whole `for band_i in range(1, dst.RasterCount + 1)` loop, over the
source bands' declared nodata values. -/
def resample_grid_nodata (src_bands : List (Option ℚ)) : List ℚ :=
  src_bands.map resample_nodata

/-- The nodata policy as the frozen claim words it (for comparison with the
source behaviour `resample_nodata`): keep a declared nodata, sentinel `-9999`
exactly when none is declared. -/
def resample_nodata_claim : Option ℚ → ℚ
  | none => -9999
  | some v => v

/-! ## Helper lemmas -/

lemma unwrap_of_lt {c : ℚ} (h : c < 180) : unwrap c = c :=
  if_pos h

lemma unwrap_of_ge {c : ℚ} (h : ¬ c < 180) : unwrap c = c - 360 :=
  if_neg h

lemma lon_label_of_neg {lon : ℚ} (h : unwrap lon < 0) :
    lon_label lon = format03d (floor10 (unwrap lon)) ++ "W" := by
  simp only [lon_label, if_pos h]

lemma lon_label_of_nonneg {lon : ℚ} (h : ¬ unwrap lon < 0) :
    lon_label lon = format03d (floor10 (unwrap lon)) ++ "E" := by
  simp only [lon_label, if_neg h]

lemma lat_label_of_pos {lat : ℚ} (h : lat > 0) :
    lat_label lat = format03d (ceil10 lat) ++ "N" := by
  simp only [lat_label, if_pos h]

lemma lat_label_of_nonpos {lat : ℚ} (h : ¬ lat > 0) :
    lat_label lat = format03d (ceil10 lat) ++ "S" := by
  simp only [lat_label, if_neg h]

lemma floor10_eq {fval : ℚ} (z : ℤ) (h1 : (z : ℚ) ≤ fval / 10)
    (h2 : fval / 10 < z + 1) : floor10 fval = (z * 10).natAbs := by
  unfold floor10
  rw [Int.floor_eq_iff.mpr ⟨h1, h2⟩]

lemma ceil10_eq {fval : ℚ} (z : ℤ) (h1 : (z : ℚ) - 1 < fval / 10)
    (h2 : fval / 10 ≤ z) : ceil10 fval = (z * 10).natAbs := by
  unfold ceil10
  rw [Int.ceil_eq_iff.mpr ⟨h1, h2⟩]

/-! ## Claims -/

/-- C4 (counterexample): the claim asserts `lat_label(-5.1) == "010S"`, but
the source applies `abs` after `ceil`, so `ceil10(-5.1) = |ceil(-0.51)*10| =
0` and the label is `"000S"` (the tile id format `mwp.py` generates for the
`0..-10°` latitude row in `get_global_locations`). -/
theorem lat_label_neg5_cex :
    lat_label (-5.1 : ℚ) ≠ "010S" ∧ lat_label (-5.1 : ℚ) = "000S" := by
  have h : lat_label (-5.1 : ℚ) = "000S" := by
    rw [lat_label_of_nonpos (by norm_num), ceil10_eq 0 (by norm_num) (by norm_num)]
    decide
  exact ⟨by rw [h]; decide, h⟩

/-- C4 (amended): `lon_label(-125.4) = "130W"`, `lon_label(174.0) = "170E"`,
`lat_label(49.9) = "050N"`, and `lat_label(-5.1) = "000S"` (not `"010S"` as
claimed: `abs` is applied after `ceil`, so the `0..-10°` row is `000S`). -/
theorem tile_label_examples :
    lon_label (-125.4 : ℚ) = "130W" ∧ lon_label (174 : ℚ) = "170E" ∧
    lat_label (49.9 : ℚ) = "050N" ∧ lat_label (-5.1 : ℚ) = "000S" := by
  refine ⟨?_, ?_, ?_, ?_⟩
  · rw [lon_label_of_neg (by rw [unwrap_of_lt (by norm_num)]; norm_num),
      unwrap_of_lt (by norm_num), floor10_eq (-13) (by norm_num) (by norm_num)]
    decide
  · rw [lon_label_of_nonneg (by rw [unwrap_of_lt (by norm_num)]; norm_num),
      unwrap_of_lt (by norm_num), floor10_eq 17 (by norm_num) (by norm_num)]
    decide
  · rw [lat_label_of_pos (by norm_num), ceil10_eq 5 (by norm_num) (by norm_num)]
    decide
  · rw [lat_label_of_nonpos (by norm_num), ceil10_eq 0 (by norm_num) (by norm_num)]
    decide

lemma lon_label_claim_of_neg {lon : ℚ} (h : lon < 0) :
    lon_label_claim lon = format03d ((⌊|lon| / 10⌋ * 10).toNat) ++ "W" := by
  simp only [lon_label_claim]
  rw [if_neg (not_le.mpr h), if_neg (fun hc => absurd hc.1 (by linarith))]

/-- C5 (counterexample): at `lon = -125.4` the source yields `"130W"` (the
magnitude is `|floor(lon/10)*10| = 130`), while the claimed rule
`floor(|lon|/10)*10` yields magnitude `120` and hence `"120W"`. -/
theorem lon_label_formula_cex :
    lon_label (-125.4 : ℚ) = "130W" ∧ lon_label_claim (-125.4 : ℚ) = "120W" ∧
    lon_label (-125.4 : ℚ) ≠ lon_label_claim (-125.4 : ℚ) := by
  have h1 : lon_label (-125.4 : ℚ) = "130W" := by
    rw [lon_label_of_neg (by rw [unwrap_of_lt (by norm_num)]; norm_num),
      unwrap_of_lt (by norm_num), floor10_eq (-13) (by norm_num) (by norm_num)]
    decide
  have h2 : lon_label_claim (-125.4 : ℚ) = "120W" := by
    rw [lon_label_claim_of_neg (by norm_num),
      show (⌊|(-125.4 : ℚ)| / 10⌋ * 10).toNat = 120 by
        rw [abs_of_nonpos (by norm_num)]; norm_num; decide]
    decide
  exact ⟨h1, h2, by rw [h1, h2]; decide⟩

/-- C5 (amended): `lon_label` unwraps `lon` by subtracting 360 when
`lon ≥ 180` (mapping `[0,360)` into `[-180,180)`, not `(-180,180]`); the
suffix is `E`/`W` according to the sign of the *unwrapped* value; the 3-digit
magnitude is `floor(|u|/10)*10` for unwrapped `u ≥ 0` but `ceil(|u|/10)*10`
for `u < 0`. -/
theorem lon_label_characterization (lon : ℚ) :
    (0 ≤ lon → lon < 360 → -180 ≤ unwrap lon ∧ unwrap lon < 180) ∧
    (0 ≤ unwrap lon →
      lon_label lon = format03d ((⌊|unwrap lon| / 10⌋ * 10).toNat) ++ "E") ∧
    (unwrap lon < 0 →
      lon_label lon = format03d ((⌈|unwrap lon| / 10⌉ * 10).toNat) ++ "W") := by
  refine ⟨?_, ?_, ?_⟩
  · intro h0 h360
    by_cases h : lon < 180
    · rw [unwrap_of_lt h]
      exact ⟨by linarith, h⟩
    · rw [unwrap_of_ge h]
      push_neg at h
      exact ⟨by linarith, by linarith⟩
  · intro h
    rw [lon_label_of_nonneg (not_lt.mpr h)]
    have hval : floor10 (unwrap lon) = (⌊|unwrap lon| / 10⌋ * 10).toNat := by
      unfold floor10
      rw [abs_of_nonneg h]
      have hz : 0 ≤ ⌊unwrap lon / 10⌋ :=
        Int.floor_nonneg.mpr (div_nonneg h (by norm_num))
      omega
    rw [hval]
  · intro h
    rw [lon_label_of_neg h]
    have hval : floor10 (unwrap lon) = (⌈|unwrap lon| / 10⌉ * 10).toNat := by
      unfold floor10
      rw [abs_of_neg h, neg_div, Int.ceil_neg]
      have hz : ⌊unwrap lon / 10⌋ ≤ 0 := by
        have hq : unwrap lon / 10 ≤ 0 := by linarith
        calc ⌊unwrap lon / 10⌋ ≤ ⌊(0 : ℚ)⌋ := Int.floor_le_floor hq
          _ = 0 := Int.floor_zero
      omega
    rw [hval]

/-- C5 (witness): at `lon = 200` the unwrapped value is `-160 < 0`, and the
amended characterization applies with the `W` branch. -/
theorem lon_label_characterization_witness :
    lon_label (200 : ℚ) =
      format03d ((⌈|unwrap (200 : ℚ)| / 10⌉ * 10).toNat) ++ "W" :=
  (lon_label_characterization 200).2.2
    (by rw [unwrap_of_ge (by norm_num)]; norm_num)

lemma lon_label_cell {j : ℤ} {x : ℚ} (hub : 10 * (j : ℚ) + 10 ≤ 180)
    (hl : 10 * (j : ℚ) < x) (hu : x < 10 * (j : ℚ) + 10) :
    lon_label x = format03d ((j * 10).natAbs) ++ (if j < 0 then "W" else "E") := by
  have hu180 : unwrap x = x := unwrap_of_lt (by linarith)
  have hfl : ⌊x / 10⌋ = j := by
    rw [Int.floor_eq_iff]
    refine ⟨by linarith, ?_⟩
    linarith
  by_cases hj : j < 0
  · have hj1 : (j : ℚ) ≤ -1 := by exact_mod_cast (by omega : j ≤ -1)
    rw [lon_label_of_neg (by rw [hu180]; linarith), hu180]
    unfold floor10
    rw [hfl, if_pos hj]
  · have hj0 : (0 : ℚ) ≤ j := by exact_mod_cast not_lt.mp hj
    rw [lon_label_of_nonneg (by rw [hu180]; push_neg; linarith), hu180]
    unfold floor10
    rw [hfl, if_neg hj]

lemma lat_label_cell {k : ℤ} {y : ℚ} (hl : 10 * (k : ℚ) < y)
    (hu : y < 10 * (k : ℚ) + 10) :
    lat_label y = format03d (((k + 1) * 10).natAbs) ++ (if 0 ≤ k then "N" else "S") := by
  have hcl : ⌈y / 10⌉ = k + 1 := by
    rw [Int.ceil_eq_iff]
    constructor
    · push_cast
      linarith
    · push_cast
      linarith
  by_cases hk : 0 ≤ k
  · have hk0 : (0 : ℚ) ≤ k := by exact_mod_cast hk
    rw [lat_label_of_pos (by linarith)]
    unfold ceil10
    rw [hcl, if_pos hk]
  · have hk1 : (k : ℚ) ≤ -1 := by exact_mod_cast (by omega : k ≤ -1)
    rw [lat_label_of_nonpos (by push_neg; linarith)]
    unfold ceil10
    rw [hcl, if_neg hk]

/-- C6: `get_tiles(-125,-118,45,52)` is exactly the four tile ids
`{130W050N, 130W060N, 120W050N, 120W060N}` (order not significant); in
general the result is the cross product of the (≤2 distinct) longitude
labels with the (≤2 distinct) latitude labels; and a box strictly inside one
10°×10° cell yields exactly one tile id. -/
theorem get_tiles_spec :
    ((get_tiles (-125) (-118) 45 52).length = 4 ∧
      ∀ t, t ∈ get_tiles (-125) (-118) 45 52 ↔
        t ∈ ["130W050N", "130W060N", "120W050N", "120W060N"]) ∧
    (∀ xmin xmax ymin ymax : ℚ, ∀ t,
      t ∈ get_tiles xmin xmax ymin ymax ↔
        ∃ xv yv, (xv = lon_label xmin ∨ xv = lon_label xmax) ∧
          (yv = lat_label ymin ∨ yv = lat_label ymax) ∧ t = xv ++ yv) ∧
    (∀ (j k : ℤ) (xmin xmax ymin ymax : ℚ),
      10 * (j : ℚ) + 10 ≤ 180 →
      10 * (j : ℚ) < xmin → xmin < 10 * (j : ℚ) + 10 →
      10 * (j : ℚ) < xmax → xmax < 10 * (j : ℚ) + 10 →
      10 * (k : ℚ) < ymin → ymin < 10 * (k : ℚ) + 10 →
      10 * (k : ℚ) < ymax → ymax < 10 * (k : ℚ) + 10 →
      get_tiles xmin xmax ymin ymax = [lon_label xmin ++ lat_label ymin]) := by
  refine ⟨?_, ?_, ?_⟩
  · have e1 : lon_label (-125 : ℚ) = "130W" := by
      rw [lon_label_of_neg (by rw [unwrap_of_lt (by norm_num)]; norm_num),
        unwrap_of_lt (by norm_num), floor10_eq (-13) (by norm_num) (by norm_num)]
      decide
    have e2 : lon_label (-118 : ℚ) = "120W" := by
      rw [lon_label_of_neg (by rw [unwrap_of_lt (by norm_num)]; norm_num),
        unwrap_of_lt (by norm_num), floor10_eq (-12) (by norm_num) (by norm_num)]
      decide
    have e3 : lat_label (45 : ℚ) = "050N" := by
      rw [lat_label_of_pos (by norm_num), ceil10_eq 5 (by norm_num) (by norm_num)]
      decide
    have e4 : lat_label (52 : ℚ) = "060N" := by
      rw [lat_label_of_pos (by norm_num), ceil10_eq 6 (by norm_num) (by norm_num)]
      decide
    have hg : get_tiles (-125) (-118) 45 52
        = ["130W050N", "130W060N", "120W050N", "120W060N"] := by
      unfold get_tiles
      rw [e1, e2, e3, e4]
      decide
    exact ⟨by rw [hg]; rfl, fun t => by rw [hg]⟩
  · intro xmin xmax ymin ymax t
    unfold get_tiles pyset2
    by_cases hx : lon_label xmin = lon_label xmax <;>
      by_cases hy : lat_label ymin = lat_label ymax <;>
        simp [hx, hy] <;> aesop
  · intro j k xmin xmax ymin ymax hub hl1 hu1 hl2 hu2 kl1 ku1 kl2 ku2
    have ex : lon_label xmin = lon_label xmax := by
      rw [lon_label_cell hub hl1 hu1, lon_label_cell hub hl2 hu2]
    have ey : lat_label ymin = lat_label ymax := by
      rw [lat_label_cell kl1 ku1, lat_label_cell kl2 ku2]
    unfold get_tiles pyset2
    rw [if_pos ex, if_pos ey]
    simp

/-- C6 (witness): the box `[122,125]×[-35,-31]` lies strictly inside the
single cell `(120,130)×(-40,-30)` and yields exactly one tile id. -/
theorem get_tiles_spec_witness :
    get_tiles 122 125 (-35) (-31) = ["120E030S"] := by
  have h := get_tiles_spec.2.2 12 (-4) 122 125 (-35) (-31)
    (by norm_num) (by norm_num) (by norm_num) (by norm_num) (by norm_num)
    (by norm_num) (by norm_num) (by norm_num) (by norm_num)
  rw [h, lon_label_of_nonneg (by rw [unwrap_of_lt (by norm_num)]; norm_num),
    unwrap_of_lt (by norm_num), floor10_eq 12 (by norm_num) (by norm_num),
    lat_label_of_nonpos (by norm_num), ceil10_eq (-3) (by norm_num) (by norm_num)]
  decide

lemma load_foldl_some {α : Type} (outcomes : List (Option α)) (s : List α) :
    outcomes.foldl load_step (some s) = some (s ++ outcomes.filterMap id) := by
  induction outcomes generalizing s with
  | nil => simp
  | cons o rest ih =>
    cases o with
    | none => simp [load_step, ih]
    | some a => simp [load_step, ih]

lemma load_eq_none {α : Type} (outcomes : List (Option α))
    (h : outcomes.filterMap id = []) : load outcomes = none := by
  induction outcomes with
  | nil => rfl
  | cons o rest ih =>
    cases o with
    | none =>
      simp only [List.filterMap_cons_none, id] at h
      simpa [load, load_step] using ih h
    | some a => simp at h

lemma load_eq_some {α : Type} (outcomes : List (Option α))
    (h : outcomes.filterMap id ≠ []) :
    load outcomes = some (outcomes.filterMap id) := by
  induction outcomes with
  | nil => exact absurd rfl h
  | cons o rest ih =>
    cases o with
    | none =>
      simp only [List.filterMap_cons_none, id] at h ⊢
      simpa [load, load_step] using ih h
    | some a =>
      show List.foldl load_step (load_step none (some a)) rest = _
      rw [show load_step (none : Option (List α)) (some a) = some [a] from rfl,
        load_foldl_some]
      simp

lemma filterMap_id_length {α : Type} (outcomes : List (Option α)) :
    (outcomes.filterMap id).length
      = outcomes.length - outcomes.countP (fun o => o.isNone) := by
  induction outcomes with
  | nil => rfl
  | cons o rest ih =>
    have hle := List.countP_le_length (p := fun o : Option α => o.isNone) (l := rest)
    cases o with
    | none =>
      simp [List.countP_cons, ih]
    | some a =>
      simp [List.countP_cons, ih]
      omega

/-- C2 (counterexample): with `n = 1` paths of which `k = 1` fail to open,
`load` returns `None` — not a time-indexed stack of `n - k = 0` entries. -/
theorem load_all_failed_cex :
    load ([none] : List (Option ℕ)) = none ∧
    load ([none] : List (Option ℕ)) ≠ some [] := by
  have h0 : load ([none] : List (Option ℕ)) = none := rfl
  exact ⟨h0, fun h => Option.noConfusion (h0 ▸ h)⟩

/-- C2 (amended): for every list of `n` open outcomes of which `k` fail,
*provided at least one succeeds* (`k < n`), `load` returns the stack of
exactly the `n - k` successfully opened arrays in input order; failures are
skipped, never fatal (`load` is total and raises for no input). -/
theorem load_skips_failures {α : Type} (outcomes : List (Option α))
    (h : outcomes.filterMap id ≠ []) :
    load outcomes = some (outcomes.filterMap id) ∧
    (outcomes.filterMap id).length
      = outcomes.length - outcomes.countP (fun o => o.isNone) :=
  ⟨load_eq_some outcomes h, filterMap_id_length outcomes⟩

/-- C2 (witness): three paths of which the middle one fails: the stack holds
the two successes in input order, `2 = 3 - 1`. -/
theorem load_skips_failures_witness :
    load [some 1, none, some (2 : ℕ)] = some [1, 2] ∧
    ([some 1, none, some (2 : ℕ)].filterMap id).length
      = [some 1, none, some (2 : ℕ)].length
        - [some 1, none, some (2 : ℕ)].countP (fun o => o.isNone) := by
  have h := load_skips_failures [some 1, none, some (2 : ℕ)] (by decide)
  exact ⟨h.1.trans (by decide), h.2⟩

/-- C9: when no file opens successfully (including the empty path list)
`load` returns `None`, not an empty stack; when exactly one opens, the result
is the one-entry time stack holding that array. -/
theorem load_none_or_single {α : Type} :
    (∀ outcomes : List (Option α),
      outcomes.filterMap id = [] → load outcomes = none) ∧
    (∀ (outcomes : List (Option α)) (a : α),
      outcomes.filterMap id = [a] → load outcomes = some [a]) ∧
    load ([] : List (Option α)) = none := by
  refine ⟨load_eq_none, ?_, rfl⟩
  intro outcomes a h
  rw [load_eq_some outcomes (by simp [h]), h]

/-- C9 (witness): both-files-fail returns `None`; a single success among
failures returns the one-entry stack. -/
theorem load_none_or_single_witness :
    load ([none, none] : List (Option ℕ)) = none ∧
    load [none, some (5 : ℕ)] = some [5] :=
  ⟨(load_none_or_single (α := ℕ)).1 [none, none] (by decide),
   (load_none_or_single (α := ℕ)).2.1 [none, some 5] 5 (by decide)⟩

lemma mergable_of_short {α : Type} (arrays : List (XArr α))
    (h : arrays.length ≤ 1) : mergable arrays = true := by
  match arrays with
  | [] => rfl
  | [a] => simp [mergable]
  | a :: b :: rest => simp at h

/-- C3: `mergable` is false on two grids of different shapes (in particular
on grids differing in `(height, width)`), and `load1` — the merge entry point
that asserts `mergable` before calling `merge` — then raises the shape
mismatch error (the spec's ShapeMismatchError) and yields no stack at all. -/
theorem load1_shape_mismatch {α : Type} :
    (∀ a b : XArr α, a.shape ≠ b.shape → mergable [a, b] = false) ∧
    (∀ outcomes : List (Option (XArr α)),
      mergable (outcomes.filterMap id) = false →
      load1 outcomes = .error .shapeMismatch) := by
  constructor
  · intro a b hne
    have hba : b.shape ≠ a.shape := fun hs => hne hs.symm
    simp [mergable, hba]
  · intro outcomes hm
    have hlen : 1 < (outcomes.filterMap id).length := by
      by_contra hle
      push_neg at hle
      rw [mergable_of_short _ hle] at hm
      exact Bool.noConfusion hm
    simp only [load1]
    rw [if_pos hlen, if_neg (by simp [hm])]

/-- C3 (witness): two grids of shapes `(2,3)` and `(4,5)`: `mergable` is
false and `load1` raises the shape-mismatch error. -/
theorem load1_shape_mismatch_witness :
    mergable [XArr.mk [2, 3] (0 : ℕ), XArr.mk [4, 5] 1] = false ∧
    load1 [some (XArr.mk [2, 3] (0 : ℕ)), some (XArr.mk [4, 5] 1)]
      = .error .shapeMismatch :=
  ⟨(load1_shape_mismatch (α := ℕ)).1 _ _ (by decide),
   (load1_shape_mismatch (α := ℕ)).2 _ (by decide)⟩

lemma pysort_asc_perm (l : List ℚ) : (pysort_asc l).Perm l :=
  List.mergeSort_perm l _

lemma pysort_desc_perm (l : List ℚ) : (pysort_desc l).Perm l :=
  List.mergeSort_perm l _

lemma pysort_asc_sorted (l : List ℚ) : (pysort_asc l).Sorted (· ≤ ·) := by
  have h := @List.sorted_mergeSort ℚ (fun a b : ℚ => decide (a ≤ b))
    (fun a b c hab hbc => by
      simp only [decide_eq_true_eq] at *
      exact le_trans hab hbc)
    (fun a b => by
      simp only [Bool.or_eq_true, decide_eq_true_eq]
      exact le_total a b)
    l
  exact h.imp (fun hab => by simpa using hab)

lemma pysort_desc_sorted (l : List ℚ) : (pysort_desc l).Sorted (· ≥ ·) := by
  have h := @List.sorted_mergeSort ℚ (fun a b : ℚ => decide (b ≤ a))
    (fun a b c hab hbc => by
      simp only [decide_eq_true_eq] at *
      exact le_trans hbc hab)
    (fun a b => by
      simp only [Bool.or_eq_true, decide_eq_true_eq]
      exact le_total b a)
    l
  exact h.imp (fun hab => by simpa using hab)

/-- C10: `subset` sorts the caller's two bound lists in place — the post-call
`xbounds` is a permutation of the input sorted ascending, the post-call
`ybounds` a permutation of the input sorted descending exactly when the
grid's own y extent (`y[0] > y[-1]`) is descending — and the selection window
is built from the already-sorted lists. -/
theorem subset_sorts_bounds (g : XData) (xb yb : List ℚ) :
    ((subset g xb yb).xbounds.Perm xb ∧
      (subset g xb yb).xbounds.Sorted (· ≤ ·)) ∧
    (subset g xb yb).ybounds.Perm yb ∧
    (g.y_coords.headD 0 > g.y_coords.getLastD 0 →
      (subset g xb yb).ybounds.Sorted (· ≥ ·)) ∧
    (¬ g.y_coords.headD 0 > g.y_coords.getLastD 0 →
      (subset g xb yb).ybounds.Sorted (· ≤ ·)) ∧
    (subset g xb yb).x_window
      = ((subset g xb yb).xbounds.head?, (subset g xb yb).xbounds[1]?) ∧
    (subset g xb yb).y_window
      = ((subset g xb yb).ybounds.head?, (subset g xb yb).ybounds[1]?) := by
  have hx : (subset g xb yb).xbounds = pysort_asc xb := rfl
  have hyb : (subset g xb yb).ybounds
      = if g.y_coords.headD 0 > g.y_coords.getLastD 0
        then pysort_desc yb else pysort_asc yb := rfl
  refine ⟨⟨?_, ?_⟩, ?_, ?_, ?_, rfl, rfl⟩
  · rw [hx]
    exact pysort_asc_perm xb
  · rw [hx]
    exact pysort_asc_sorted xb
  · rw [hyb]
    split
    · exact pysort_desc_perm yb
    · exact pysort_asc_perm yb
  · intro hrev
    rw [hyb, if_pos hrev]
    exact pysort_desc_sorted yb
  · intro hrev
    rw [hyb, if_neg hrev]
    exact pysort_asc_sorted yb

/-- C10 (witness): a grid whose y coordinates descend (`5 > 1`): the caller's
y-bounds list ends up sorted descending, the x-bounds list ascending. -/
theorem subset_sorts_bounds_witness :
    (subset (XData.mk [0] [5, 1]) [3, 2] [1, 4]).ybounds.Sorted (· ≥ ·) ∧
    (subset (XData.mk [0] [5, 1]) [3, 2] [1, 4]).xbounds.Sorted (· ≤ ·) := by
  have h := subset_sorts_bounds (XData.mk [0] [5, 1]) [3, 2] [1, 4]
  refine ⟨h.2.2.1 ?_, h.1.2⟩
  show List.headD [(5 : ℚ), 1] 0 > List.getLastD [(5 : ℚ), 1] 0
  norm_num [List.headD, List.getLastD]

/-- C8 (counterexample): a source band with *declared* nodata `0.0`: the
claim requires the destination band to keep `0`, but `if not nodata_value`
treats the declared `0.0` as missing and assigns the sentinel `-9999`. -/
theorem resample_nodata_zero_cex :
    resample_nodata (some 0) = -9999 ∧ resample_nodata_claim (some 0) = 0 ∧
    resample_nodata (some 0) ≠ resample_nodata_claim (some 0) := by
  have h1 : resample_nodata (some 0) = -9999 := by
    simp [resample_nodata]
  have h2 : resample_nodata_claim (some 0) = 0 := rfl
  exact ⟨h1, h2, by rw [h1, h2]; norm_num⟩

/-- C8 (amended): after `resample_grid`, each destination band keeps the
source band's declared nodata when it is declared *and nonzero*; the sentinel
`-9999` is assigned when the source declares no nodata *or declares `0`*
(Python falsiness of `0.0`); band count is preserved. -/
theorem resample_nodata_policy :
    (∀ v : ℚ, v ≠ 0 → resample_nodata (some v) = v) ∧
    resample_nodata none = -9999 ∧
    resample_nodata (some 0) = -9999 ∧
    ∀ bands : List (Option ℚ),
      resample_grid_nodata bands = bands.map resample_nodata ∧
      (resample_grid_nodata bands).length = bands.length := by
  refine ⟨?_, rfl, by simp [resample_nodata], ?_⟩
  · intro v hv
    simp [resample_nodata, hv]
  · intro bands
    exact ⟨rfl, by simp [resample_grid_nodata]⟩

/-- C8 (witness): declared nodata `-3.5` is kept; an undeclared one becomes
`-9999`. -/
theorem resample_nodata_policy_witness :
    resample_nodata (some (-3.5)) = -3.5 ∧ resample_nodata none = -9999 :=
  ⟨resample_nodata_policy.1 (-3.5) (by norm_num), resample_nodata_policy.2.1⟩

/-! ### Affine round trip -/

lemma ainv_affine_apply (t : AffineT) (h : det t ≠ 0) (x y : ℚ) :
    affine_apply (ainv t) (affine_apply t x y).1 (affine_apply t x y).2
      = (x, y) := by
  have hd : t.a * t.e - t.b * t.d ≠ 0 := h
  simp only [affine_apply, ainv, det]
  rw [Prod.mk.injEq]
  constructor
  · field_simp
    ring
  · field_simp
    ring

lemma roundtrip_eq_ok {g : GDALGrid} {col row : ℤ} {X Y : ℚ}
    (h : pixel2coord g col row = .ok (X, Y)) :
    roundtrip g col row = coord2pixel g X Y := by
  unfold roundtrip
  rw [h]

lemma pixel2coord_ok {g : GDALGrid} {col row : ℤ}
    (hcw : col < (g.x_size : ℤ)) (hrh : row < (g.y_size : ℤ)) :
    pixel2coord g col row
      = .ok ((affine_apply g.affine ((col : ℚ) + 1/2) ((row : ℚ) + 1/2)).1,
             (affine_apply g.affine ((col : ℚ) + 1/2) ((row : ℚ) + 1/2)).2) := by
  unfold pixel2coord
  rw [if_neg (not_le.mpr hcw), if_neg (not_le.mpr hrh)]

lemma coord2pixel_ok (g : GDALGrid) (x y : ℚ) (hdet : ¬ det g.affine = 0)
    (h1 : 0 ≤ (affine_apply (ainv g.affine) x y).1)
    (h2 : (affine_apply (ainv g.affine) x y).1 ≤ (g.x_size : ℚ))
    (h3 : 0 ≤ (affine_apply (ainv g.affine) x y).2)
    (h4 : (affine_apply (ainv g.affine) x y).2 ≤ (g.y_size : ℚ)) :
    coord2pixel g x y
      = .ok (pytrunc (affine_apply (ainv g.affine) x y).1,
             pytrunc (affine_apply (ainv g.affine) x y).2) := by
  simp only [coord2pixel]
  rw [if_neg hdet, if_neg (by push_neg; exact ⟨h2, h1⟩),
    if_neg (by push_neg; exact ⟨h4, h3⟩)]

/-- C1 (counterexample): a grid whose affine transform has non-zero pixel
width and height (`a = e = 1`) but rotation terms `b = d = 1`, hence zero
determinant: `pixel2coord(0,0)` succeeds but `coord2pixel` fails on affine
inversion, so the round trip does not return `(0,0)`. -/
theorem roundtrip_noninvertible_cex :
    (AffineT.mk 1 1 0 1 1 0).a ≠ 0 ∧ (AffineT.mk 1 1 0 1 1 0).e ≠ 0 ∧
    roundtrip (GDALGrid.mk (AffineT.mk 1 1 0 1 1 0) 1 1) 0 0
      = .error .notInvertible := by
  refine ⟨by norm_num, by norm_num, ?_⟩
  rw [roundtrip_eq_ok (pixel2coord_ok (by norm_num) (by norm_num))]
  simp only [coord2pixel]
  rw [if_pos (show det (GDALGrid.mk (AffineT.mk 1 1 0 1 1 0) 1 1).affine = 0 by
    unfold det
    norm_num)]

/-- C1 (amended): for every grid whose affine transform is invertible
(non-zero determinant — non-zero pixel width and height alone do not suffice
when rotation terms are present) and every in-bounds pixel `(col,row)`,
`coord2pixel (pixel2coord (col,row))` returns exactly `(col,row)`; over exact
arithmetic the round trip is exact, hence within floating tolerance. -/
theorem roundtrip_exact (g : GDALGrid) (col row : ℤ)
    (hdet : det g.affine ≠ 0) (hc0 : 0 ≤ col) (hcw : col < (g.x_size : ℤ))
    (hr0 : 0 ≤ row) (hrh : row < (g.y_size : ℤ)) :
    roundtrip g col row = .ok (col, row) := by
  have hinv := ainv_affine_apply g.affine hdet ((col : ℚ) + 1/2) ((row : ℚ) + 1/2)
  have hcQ1 : (col : ℚ) + 1 ≤ (g.x_size : ℚ) := by
    exact_mod_cast Int.add_one_le_iff.mpr hcw
  have hcQ0 : (0 : ℚ) ≤ (col : ℚ) := by exact_mod_cast hc0
  have hrQ1 : (row : ℚ) + 1 ≤ (g.y_size : ℚ) := by
    exact_mod_cast Int.add_one_le_iff.mpr hrh
  have hrQ0 : (0 : ℚ) ≤ (row : ℚ) := by exact_mod_cast hr0
  have htc : pytrunc ((col : ℚ) + 1/2) = col := by
    unfold pytrunc
    rw [if_neg (by push_neg; linarith)]
    rw [Int.floor_eq_iff]
    constructor
    · linarith
    · linarith
  have htr : pytrunc ((row : ℚ) + 1/2) = row := by
    unfold pytrunc
    rw [if_neg (by push_neg; linarith)]
    rw [Int.floor_eq_iff]
    constructor
    · linarith
    · linarith
  rw [roundtrip_eq_ok (pixel2coord_ok hcw hrh),
    coord2pixel_ok g _ _ hdet
      (by rw [hinv]; show (0 : ℚ) ≤ (col : ℚ) + 1/2; linarith)
      (by rw [hinv]; show (col : ℚ) + 1/2 ≤ (g.x_size : ℚ); linarith)
      (by rw [hinv]; show (0 : ℚ) ≤ (row : ℚ) + 1/2; linarith)
      (by rw [hinv]; show (row : ℚ) + 1/2 ≤ (g.y_size : ℚ); linarith),
    hinv]
  show Except.ok (pytrunc ((col : ℚ) + 1/2), pytrunc ((row : ℚ) + 1/2)) = _
  rw [htc, htr]

/-- C1 (witness): the round trip at pixel `(2,1)` of a 4×3 north-up grid
with unit pixels (determinant `-1`). -/
theorem roundtrip_exact_witness :
    roundtrip (GDALGrid.mk (AffineT.mk 1 0 0 0 (-1) 0) 4 3) 2 1 = .ok (2, 1) :=
  roundtrip_exact (GDALGrid.mk (AffineT.mk 1 0 0 0 (-1) 0) 4 3) 2 1
    (by norm_num [det]) (by norm_num) (by norm_num) (by norm_num) (by norm_num)

/-- C7 (counterexample): on the 2×2 identity-affine grid, the coordinate
`(2,1)` maps to pre-truncation column exactly `2 = width`; the source checks
`col > x_size` (not `>=`) before truncation, so no error is raised and the
returned column index `2` is *not* in bounds (`¬ 2 < width`), contradicting
the claimed "raises exactly when the index is ≥ size / success is
in-bounds". -/
theorem coord2pixel_boundary_cex :
    coord2pixel unitGrid 2 1 = .ok (2, 1) ∧
    ¬ ((2 : ℤ) < (unitGrid.x_size : ℤ)) := by
  constructor
  · have hA : affine_apply (ainv unitGrid.affine) 2 1 = (2, 1) := by
      simp only [unitGrid, ainv, det, affine_apply, Prod.mk.injEq]
      norm_num
    have hp2 : pytrunc (2 : ℚ) = 2 := by
      unfold pytrunc
      rw [if_neg (by norm_num)]
      norm_num
    have hp1 : pytrunc (1 : ℚ) = 1 := by
      unfold pytrunc
      rw [if_neg (by norm_num)]
      norm_num
    rw [coord2pixel_ok unitGrid 2 1 (by norm_num [unitGrid, det])
        (by rw [hA]; show (0 : ℚ) ≤ 2; norm_num)
        (by rw [hA]; show (2 : ℚ) ≤ (unitGrid.x_size : ℚ); norm_num [unitGrid])
        (by rw [hA]; show (0 : ℚ) ≤ 1; norm_num)
        (by rw [hA]; show (1 : ℚ) ≤ (unitGrid.y_size : ℚ); norm_num [unitGrid]),
      hA]
    show Except.ok (pytrunc (2 : ℚ), pytrunc (1 : ℚ)) = _
    rw [hp2, hp1]
  · norm_num [unitGrid]

/-- C7 (amended): with an invertible affine transform, `coord2pixel` raises
exactly when the *pre-truncation* inverse-transformed column is negative or
exceeds the width, or the row is negative or exceeds the height (strict
`>`, checked before truncation); on success the returned index is the
truncation of that point and satisfies `0 ≤ col ≤ width`, `0 ≤ row ≤ height`
— so `col = width` (resp. `row = height`) can be returned for a coordinate on
the far boundary, one past the last pixel. -/
theorem coord2pixel_characterization (g : GDALGrid) (x y : ℚ)
    (hdet : det g.affine ≠ 0) :
    ((∃ e, coord2pixel g x y = .error e) ↔
      ((g.x_size : ℚ) < (affine_apply (ainv g.affine) x y).1 ∨
        (affine_apply (ainv g.affine) x y).1 < 0 ∨
        (g.y_size : ℚ) < (affine_apply (ainv g.affine) x y).2 ∨
        (affine_apply (ainv g.affine) x y).2 < 0)) ∧
    (∀ c r : ℤ, coord2pixel g x y = .ok (c, r) →
      c = pytrunc (affine_apply (ainv g.affine) x y).1 ∧
      r = pytrunc (affine_apply (ainv g.affine) x y).2 ∧
      0 ≤ c ∧ c ≤ (g.x_size : ℤ) ∧ 0 ≤ r ∧ r ≤ (g.y_size : ℤ)) := by
  by_cases h1 : (g.x_size : ℚ) < (affine_apply (ainv g.affine) x y).1 ∨
      (affine_apply (ainv g.affine) x y).1 < 0
  · have hev : coord2pixel g x y = .error .lonOutOfBounds := by
      simp only [coord2pixel]
      rw [if_neg hdet, if_pos h1]
    constructor
    · rw [hev]
      constructor
      · intro _
        rcases h1 with h | h
        · exact Or.inl h
        · exact Or.inr (Or.inl h)
      · intro _
        exact ⟨_, rfl⟩
    · intro c r hcr
      rw [hev] at hcr
      exact absurd hcr (by simp)
  · by_cases h2 : (g.y_size : ℚ) < (affine_apply (ainv g.affine) x y).2 ∨
        (affine_apply (ainv g.affine) x y).2 < 0
    · have hev : coord2pixel g x y = .error .latOutOfBounds := by
        simp only [coord2pixel]
        rw [if_neg hdet, if_neg h1, if_pos h2]
      constructor
      · rw [hev]
        constructor
        · intro _
          rcases h2 with h | h
          · exact Or.inr (Or.inr (Or.inl h))
          · exact Or.inr (Or.inr (Or.inr h))
        · intro _
          exact ⟨_, rfl⟩
      · intro c r hcr
        rw [hev] at hcr
        exact absurd hcr (by simp)
    · push_neg at h1 h2
      obtain ⟨hx1, hx0⟩ := h1
      obtain ⟨hy1, hy0⟩ := h2
      have hev := coord2pixel_ok g x y hdet hx0 hx1 hy0 hy1
      have hptc : pytrunc (affine_apply (ainv g.affine) x y).1
          = ⌊(affine_apply (ainv g.affine) x y).1⌋ := by
        unfold pytrunc
        rw [if_neg (not_lt.mpr hx0)]
      have hptr : pytrunc (affine_apply (ainv g.affine) x y).2
          = ⌊(affine_apply (ainv g.affine) x y).2⌋ := by
        unfold pytrunc
        rw [if_neg (not_lt.mpr hy0)]
      constructor
      · rw [hev]
        constructor
        · rintro ⟨e, he⟩
          exact absurd he (by simp)
        · intro hor
          rcases hor with h | h | h | h
          · exact absurd h (not_lt.mpr hx1)
          · exact absurd h (not_lt.mpr hx0)
          · exact absurd h (not_lt.mpr hy1)
          · exact absurd h (not_lt.mpr hy0)
      · intro c r hcr
        rw [hev] at hcr
        injection hcr with hpair
        injection hpair with hc hr
        subst hc
        subst hr
        refine ⟨rfl, rfl, ?_, ?_, ?_, ?_⟩
        · rw [hptc]
          exact Int.floor_nonneg.mpr hx0
        · rw [hptc]
          calc ⌊(affine_apply (ainv g.affine) x y).1⌋
              ≤ ⌊((g.x_size : ℚ))⌋ := Int.floor_le_floor hx1
            _ = (g.x_size : ℤ) := Int.floor_natCast g.x_size
        · rw [hptr]
          exact Int.floor_nonneg.mpr hy0
        · rw [hptr]
          calc ⌊(affine_apply (ainv g.affine) x y).2⌋
              ≤ ⌊((g.y_size : ℚ))⌋ := Int.floor_le_floor hy1
            _ = (g.y_size : ℤ) := Int.floor_natCast g.y_size

/-- C7 (witness): the interior coordinate `(1.5, 0.5)` of the 2×2 grid
succeeds with index `(1, 0)`, which the amended characterization places in
`[0, width] × [0, height]`. -/
theorem coord2pixel_characterization_witness :
    coord2pixel unitGrid (3/2) (1/2) = .ok (1, 0) ∧
    0 ≤ (1 : ℤ) ∧ (1 : ℤ) ≤ (unitGrid.x_size : ℤ) ∧
    0 ≤ (0 : ℤ) ∧ (0 : ℤ) ≤ (unitGrid.y_size : ℤ) := by
  have hA : affine_apply (ainv unitGrid.affine) (3/2) (1/2) = (3/2, 1/2) := by
    simp only [unitGrid, ainv, det, affine_apply, Prod.mk.injEq]
    norm_num
  have hok : coord2pixel unitGrid (3/2) (1/2) = .ok (1, 0) := by
    have hp1 : pytrunc (3/2 : ℚ) = 1 := by
      unfold pytrunc
      rw [if_neg (by norm_num)]
      norm_num
    have hp0 : pytrunc (1/2 : ℚ) = 0 := by
      unfold pytrunc
      rw [if_neg (by norm_num)]
      norm_num
    rw [coord2pixel_ok unitGrid (3/2) (1/2) (by norm_num [unitGrid, det])
        (by rw [hA]; show (0 : ℚ) ≤ 3/2; norm_num)
        (by rw [hA]; show (3/2 : ℚ) ≤ (unitGrid.x_size : ℚ); norm_num [unitGrid])
        (by rw [hA]; show (0 : ℚ) ≤ 1/2; norm_num)
        (by rw [hA]; show (1/2 : ℚ) ≤ (unitGrid.y_size : ℚ); norm_num [unitGrid]),
      hA]
    show Except.ok (pytrunc (3/2 : ℚ), pytrunc (1/2 : ℚ)) = _
    rw [hp1, hp0]
  have h := (coord2pixel_characterization unitGrid (3/2) (1/2)
    (by norm_num [unitGrid, det])).2 1 0 hok
  exact ⟨hok, h.2.2.1, h.2.2.2.1, h.2.2.2.2.1, h.2.2.2.2.2⟩

end GeoProc
